import Mathlib

/-!
Verification of the dimensional upsert / reconciliation engine of
`tools/etl/load_by_date.py` (and the range driver `tools/etl/load_by_range.py`).

The Python code is shallowly embedded: pure helpers become Lean functions on
`String` / `List Char`, the database becomes explicit lists of rows threaded
through the functions, and the statements issued against the database are
recorded as explicit traces.  Strings are modelled at the ASCII level
(`Char.toUpper`/`Char.toLower` and an ASCII whitespace set stand in for
Python's Unicode-aware `str.upper`/`str.lower`/`str.strip`); the regular
expressions of the source are embedded as executable recognizers that follow
Python `re` semantics, including the rule that `$` also matches just before a
single newline at the end of the string, and that `.` does not match a newline
while a negated class such as `[^_]` does.
-/

/-- ASCII whitespace, standing in for the characters `str.strip()` and the
regex class `\s` remove in the source. -/
def isPyWs (c : Char) : Bool :=
  c = ' ' || c = '\t' || c = '\n' || c = '\r' || c = '\x0b' || c = '\x0c'

/-- `str.strip()` on a character list. -/
def stripList (cs : List Char) : List Char :=
  ((cs.dropWhile isPyWs).reverse.dropWhile isPyWs).reverse

/-- `str.strip()`. -/
def pyStrip (s : String) : String := (stripList s.toList).asString

/-- `str.upper()` (ASCII). -/
def pyUpper (s : String) : String := (s.toList.map Char.toUpper).asString

/-- `str.lower()` (ASCII). -/
def pyLower (s : String) : String := (s.toList.map Char.toLower).asString

/-- ASCII digit test, standing in for the regex class `\d`. -/
def isDig (c : Char) : Bool := '0' ≤ c && c ≤ '9'

/-- Numeric value of a digit string, as `int()` computes it on the matched
digit groups of the source. -/
def digitsVal (cs : List Char) : Nat :=
  cs.foldl (fun a c => a * 10 + (c.toNat - '0'.toNat)) 0

/-- Auxiliary for `re.sub(r"\s+", " ", s)`: each maximal whitespace run is
replaced by one space.  The flag records whether the previous character was
whitespace. -/
def collapseWsAux : List Char → Bool → List Char
  | [], _ => []
  | c :: rest, prevWs =>
    if isPyWs c then
      (if prevWs then [] else [' ']) ++ collapseWsAux rest true
    else c :: collapseWsAux rest false

/-- `_clean_str` of the source: collapse whitespace runs to a single space and
trim (`re.sub(r"\s+", " ", s).strip()`).  `None` propagates. -/
def cleanStr (s : String) : String :=
  pyStrip (collapseWsAux s.toList false).asString

/-- `_clean_str` lifted to optional strings (`None` stays `None`). -/
def cleanOpt (s : Option String) : Option String := s.map cleanStr

/-- `_norm` of the leg-key helpers: `(s or '').strip()`. -/
def normOpt (s : Option String) : String := pyStrip (s.getD "")

/-- Python truthiness of an optional string (`None` and `""` are falsy). -/
def optTruthy (s : Option String) : Bool := s ≠ none && s.getD "" ≠ ""

/-! ## Date-key parsers (`parse_datekey`, `_datekey_from_iso`) -/

/-- The regex `^(\d{4})-(\d{2})-(\d{2})` applied to a character list: when the
list begins with four digits, a hyphen, two digits, a hyphen and two digits,
the YYYYMMDD integer of the eight digits, else `none`. -/
def datekeyShape : List Char → Option Nat
  | a :: b :: c :: d :: '-' :: e :: f :: '-' :: g :: h :: _ =>
    if isDig a && isDig b && isDig c && isDig d &&
       isDig e && isDig f && isDig g && isDig h then
      some (digitsVal [a, b, c, d, e, f, g, h])
    else none
  | _ => none

/-- `parse_datekey` of the source: `s = (s or "").strip()` followed by the
shape match.  The `Option` argument models a possibly-`None` Python value. -/
def parse_datekey (s : Option String) : Option Nat :=
  datekeyShape (pyStrip (s.getD "")).toList

/-- `_datekey_from_iso` of the source: `None`/empty input returns `None`,
otherwise the input is stripped and matched. -/
def datekey_from_iso (dt : Option String) : Option Nat :=
  match dt with
  | none => none
  | some s => if s = "" then none else datekeyShape (pyStrip s).toList

/-- Modelled from the spec words of the claim (not from the source): the date
key is the integer of the first ten characters when the string itself begins
with the shape `dddd-dd-dd`, with no stripping. -/
def datekeySpecShape (s : Option String) : Option Nat :=
  datekeyShape (s.getD "").toList

/-! ## File-ingestion name parser (`_parse_file_ingestion`) -/

/-- The tail `\.xml$` of both file-name regexes, case-insensitive, with `$`
matching at the end or just before one final newline. -/
def xmlEnd : List Char → Bool
  | '.' :: x :: m :: l :: rest =>
    Char.toLower x = 'x' && Char.toLower m = 'm' && Char.toLower l = 'l' &&
    (rest = [] || rest = ['\n'])
  | _ => false

/-- After the separating underscore of the AR pattern:
`(\d{8})(\d{6})(?:\.(\d+))?\.xml$`.  Returns the date key, the six time
digits, and the fractional digits (empty when the optional group is absent). -/
def arTail (cs : List Char) : Option (Nat × List Char × List Char) :=
  let d14 := cs.take 14
  let rest := cs.drop 14
  if d14.length = 14 && d14.all isDig then
    let d8 := d14.take 8
    let d6 := d14.drop 8
    if xmlEnd rest then some (digitsVal d8, d6, [])
    else
      match rest with
      | '.' :: r2 =>
        let ds := r2.takeWhile isDig
        if ds ≠ [] && xmlEnd (r2.drop ds.length) then
          some (digitsVal d8, d6, ds)
        else none
      | _ => none
  else none

/-- `.*_` before the AR tail: the greedy `.*` (which cannot cross a newline)
selects the rightmost underscore whose remainder matches `arTail`. -/
def arScan : List Char → Option (Nat × List Char × List Char)
  | [] => none
  | c :: rest =>
    match (if c ≠ '\n' then arScan rest else none) with
    | some r => some r
    | none => if c = '_' then arTail rest else none

/-- `re.match(r"^AR_.*_(\d{8})(\d{6})(?:\.(\d+))?\.xml$", fname, re.IGNORECASE)`. -/
def arMatch : List Char → Option (Nat × List Char × List Char)
  | a :: r :: u :: rest =>
    if Char.toLower a = 'a' && Char.toLower r = 'r' && u = '_' then arScan rest
    else none
  | _ => none

/-- After the eight date digits of the CSL pattern: `_(\d{4})\.xml$`. -/
def cslTail (cs : List Char) : Option (Nat × List Char) :=
  let d8 := cs.take 8
  let rest := cs.drop 8
  if d8.length = 8 && d8.all isDig then
    match rest with
    | '_' :: r2 =>
      let d4 := r2.take 4
      let rest2 := r2.drop 4
      if d4.length = 4 && d4.all isDig && xmlEnd rest2 then
        some (digitsVal d8, d4)
      else none
    | _ => none
  else none

/-- `.*_` before the CSL tail, greedy as in `arScan`. -/
def cslScan : List Char → Option (Nat × List Char)
  | [] => none
  | c :: rest =>
    match (if c ≠ '\n' then cslScan rest else none) with
    | some r => some r
    | none => if c = '_' then cslTail rest else none

/-- `CSL[^_]*_`: the negated class cannot cross an underscore, so the
separator is necessarily the first underscore. -/
def cslFirstUnderscore (f : List Char → Option (Nat × List Char)) :
    List Char → Option (Nat × List Char)
  | [] => none
  | c :: rest => if c = '_' then f rest else cslFirstUnderscore f rest

/-- `re.match(r"^CSL[^_]*_.*_(\d{8})_(\d{4})\.xml$", fname, re.IGNORECASE)`. -/
def cslMatch : List Char → Option (Nat × List Char)
  | a :: b :: c :: rest =>
    if Char.toLower a = 'c' && Char.toLower b = 's' && Char.toLower c = 'l' then
      cslFirstUnderscore cslScan rest
    else none
  | _ => none

/-- AR time formatting: `hh:mm:ss.mmm` with
`ms = (frac[:3] if frac else "000").ljust(3, "0")`. -/
def arTimeStr (d6 frac : List Char) : String :=
  let ms := ((if frac = [] then ['0', '0', '0'] else frac.take 3) ++
             ['0', '0', '0']).take 3
  (d6.take 2 ++ ':' :: (d6.drop 2).take 2 ++ ':' :: d6.drop 4 ++ '.' :: ms).asString

/-- CSL time formatting: `hh:mm:00.000`. -/
def cslTimeStr (d4 : List Char) : String :=
  (d4.take 2 ++ ':' :: d4.drop 2 ++ (":00.000").toList).asString

/-- `re.match(r"^\d{8}$", folder_date)`: eight digits followed by the end of
the string or by one final newline (the `$` rule). -/
def matchD8 (cs : List Char) : Bool :=
  (cs.take 8).length = 8 && (cs.take 8).all isDig &&
  (cs.drop 8 = [] || cs.drop 8 = ['\n'])

/-- `str.startswith` on the character lists (structural, so proofs can
evaluate it). -/
def pyStartsWith (s pre : String) : Bool := pre.toList.isPrefixOf s.toList

/-- `os.path.basename` (POSIX separator). -/
def basenameList (cs : List Char) : List Char :=
  (cs.reverse.takeWhile (· ≠ '/')).reverse

/-- `_parse_file_ingestion(path, folder_date)` of the source, returning
`(source, file_name, date_key, time_str)`. -/
def parse_file_ingestion (path : String) (folderDate : Option String) :
    Option String × String × Option Nat × Option String :=
  let fname := (basenameList path.toList).asString
  match arMatch fname.toList with
  | some (dk, d6, frac) => (some "AR", fname, some dk, some (arTimeStr d6 frac))
  | none =>
    match cslMatch fname.toList with
    | some (dk, d4) => (some "CSL", fname, some dk, some (cslTimeStr d4))
    | none =>
      let src : Option String :=
        if pyStartsWith (pyUpper fname) "AR_" then some "AR"
        else if pyStartsWith (pyUpper fname) "CSL" then some "CSL"
        else none
      let dk : Option Nat :=
        match folderDate with
        | some fd =>
          if fd ≠ "" && matchD8 fd.toList then
            some (digitsVal (fd.toList.take 8))
          else none
        | none => none
      (src, fname, dk, none)

/-! ## Transport-leg records and the composite dedup key
(`_leg_key` at the AR level, `_leg_key2` under sub-shipments) -/

/-- The fields of a parsed transport-leg dict that enter the dedup key or the
inserted row.  `portOfLoading`/`portOfDischarge` are `(code, name)` pairs,
`none` modelling an absent dict entry (`leg.get(...) or ('', '')`). -/
structure LegRec where
  portOfLoading : Option (String × String)
  portOfDischarge : Option (String × String)
  transportMode : Option String
  vesselName : Option String
  vesselLloydsIMO : Option String
  voyageFlightNo : Option String
  order : Option Nat
  actualArrival : Option String
  actualDeparture : Option String
  estimatedArrival : Option String
  estimatedDeparture : Option String
  scheduledArrival : Option String
  scheduledDeparture : Option String
deriving DecidableEq, Repr

/-- The composite dedup key tuple
`(order, pol, pod, mode, vessel, voyage, t1..t6)`. -/
structure LegKey where
  order : Nat
  pol : String
  pod : String
  mode : String
  vessel : String
  voyage : String
  t1 : String
  t2 : String
  t3 : String
  t4 : String
  t5 : String
  t6 : String
deriving DecidableEq, Repr

/-- `_leg_key` of the AR top-level pass: ports uppercased, mode lowercased,
vessel identity is the (trimmed) Lloyds/IMO number of this record when
non-empty, else the uppercased vessel name; voyage uppercased; the six
timestamps trimmed. -/
def leg_key (l : LegRec) : LegKey :=
  { order := l.order.getD 0
    pol := pyUpper (pyStrip (l.portOfLoading.getD ("", "")).1)
    pod := pyUpper (pyStrip (l.portOfDischarge.getD ("", "")).1)
    mode := pyLower (normOpt l.transportMode)
    vessel :=
      if normOpt l.vesselLloydsIMO ≠ "" then normOpt l.vesselLloydsIMO
      else pyUpper (normOpt l.vesselName)
    voyage := pyUpper (normOpt l.voyageFlightNo)
    t1 := normOpt l.actualArrival
    t2 := normOpt l.actualDeparture
    t3 := normOpt l.estimatedArrival
    t4 := normOpt l.estimatedDeparture
    t5 := normOpt l.scheduledArrival
    t6 := normOpt l.scheduledDeparture }

/-- `_leg_key2` of the sub-shipment pass; its body is textually identical to
`_leg_key`. -/
def leg_key2 (l : LegRec) : LegKey :=
  { order := l.order.getD 0
    pol := pyUpper (pyStrip (l.portOfLoading.getD ("", "")).1)
    pod := pyUpper (pyStrip (l.portOfDischarge.getD ("", "")).1)
    mode := pyLower (normOpt l.transportMode)
    vessel :=
      if normOpt l.vesselLloydsIMO ≠ "" then normOpt l.vesselLloydsIMO
      else pyUpper (normOpt l.vesselName)
    voyage := pyUpper (normOpt l.voyageFlightNo)
    t1 := normOpt l.actualArrival
    t2 := normOpt l.actualDeparture
    t3 := normOpt l.estimatedArrival
    t4 := normOpt l.estimatedDeparture
    t5 := normOpt l.scheduledArrival
    t6 := normOpt l.scheduledDeparture }

/-- First-occurrence-per-key in-batch deduplication (the `seen` set loop and
the equivalent list comprehension of the source). -/
def dedupKeep {α κ : Type} [DecidableEq κ] (f : α → κ) :
    List α → List κ → List α
  | [], _ => []
  | x :: xs, seen =>
    if f x ∈ seen then dedupKeep f xs seen
    else x :: dedupKeep f xs (f x :: seen)

/-- Deduplicate a batch keeping the first occurrence per key. -/
def dedupByKey {α κ : Type} [DecidableEq κ] (f : α → κ) (xs : List α) : List α :=
  dedupKeep f xs []

/-! ## Child-collection reconciliation passes of `upsert_ar` -/

/-- A `FactTransportLeg` row: one of the three parent keys is set; the table
has no `Source` column. -/
structure TLegRow where
  shipKey : Option Nat
  subKey : Option Nat
  arKey : Option Nat
  leg : LegRec
deriving DecidableEq, Repr

/-- The AR top-level transport-leg pass (`upsert_ar`, around the `_leg_key`
helper): dedup the batch by `_leg_key`, delete every `FactTransportLeg` row
whose AR parent key matches, then insert the surviving records. -/
def ar_legs_pass (factKey : Nat) (legs : List LegRec) (db : List TLegRow) :
    List TLegRow :=
  let deduped := dedupByKey leg_key legs
  let db1 := db.filter (fun r => decide (r.arKey ≠ some factKey))
  db1 ++ deduped.map (fun l => ⟨none, none, some factKey, l⟩)

/-- Statements issued by the sub-shipment transport-leg pass, in order. -/
inductive LegStmt where
  | deleteBySub (subKey : Nat)
  | insertLeg (subKey : Nat) (leg : LegRec)
deriving DecidableEq, Repr

/-- The sub-shipment transport-leg pass (`_leg_key2` region): when the batch
is non-empty, dedup it in-batch (before any statement), delete the previous
legs of the sub-shipment, insert the survivors.  Returns the ordered
statement list together with the updated table. -/
def sub_legs_pass (subKey : Nat) (legs : List LegRec) (db : List TLegRow) :
    List LegStmt × List TLegRow :=
  if legs = [] then ([], db)
  else
    let deduped := dedupByKey leg_key2 legs
    let stmts := LegStmt.deleteBySub subKey :: deduped.map (LegStmt.insertLeg subKey)
    let db1 := db.filter (fun r => decide (r.subKey ≠ some subKey))
    (stmts, db1 ++ deduped.map (fun l => ⟨none, some subKey, none, l⟩))

/-- Fields of a parsed `AdditionalReference` record that identify a row. -/
structure RefRec where
  typeCode : Option String
  referenceNumber : Option String
deriving DecidableEq, Repr

/-- A `FactAdditionalReference` row with its three optional parent keys and
its `Source` discriminator. -/
structure ARefRow where
  shipKey : Option Nat
  subKey : Option Nat
  arKey : Option Nat
  source : String
  ref : RefRec
deriving DecidableEq, Repr

/-- The AR-level additional-reference pass of `upsert_ar`: when the parsed
collection is non-empty its rows are inserted with `Source = 'AR'`; the
source issues no preceding delete for this (parent, source) scope. -/
def ar_refs_pass (factKey : Nat) (refs : List RefRec) (db : List ARefRow) :
    List ARefRow :=
  if refs = [] then db
  else db ++ refs.map (fun r => ⟨none, none, some factKey, "AR", r⟩)

/-! ## The CSL sub-shipment replace step of `upsert_csl` -/

/-- The seven child fact tables whose rows hang off a sub-shipment and are
deleted before the sub-shipments themselves. -/
inductive ChildTable where
  | chargeLine
  | packingLine
  | container
  | eventDate
  | jobCosting
  | transportLeg
  | additionalReference
deriving DecidableEq, Repr

/-- A `FactSubShipment` row.  The table has no `Source` column; `fromAR` is a
ghost provenance flag recording that the row was created by the AR fallback
path, used only to state properties. -/
structure SubRow where
  key : Nat
  shipKey : Nat
  fromAR : Bool
deriving DecidableEq, Repr

/-- A child fact row tied (possibly) to a sub-shipment. -/
structure ChildRow where
  table : ChildTable
  subKey : Option Nat
  source : Option String
deriving DecidableEq, Repr

/-- The parsed payload of one CSL sub-shipment (contents irrelevant to the
reconciliation claims). -/
structure SubRec where
  wayBillNumber : Option String
deriving DecidableEq, Repr

/-- The sub-shipment-related slice of the warehouse. -/
structure ShipDB where
  subs : List SubRow
  children : List ChildRow
  nextSubKey : Nat
deriving DecidableEq, Repr

/-- The `SubShipmentCollection` replace step of `upsert_csl`: when the CSL
document carries sub-shipments and any sub-shipments already exist for the
shipment, every child row referencing one of those sub-shipment keys is
deleted (for each of the seven child tables), then the sub-shipments
themselves, and only then are the document's sub-shipments inserted with
fresh identity keys.  (Each new sub-shipment's own children are loaded by the
later per-sub-shipment passes, outside this step.) -/
def csl_subshipments_pass (shipKey : Nat) (newSubs : List SubRec) (db : ShipDB) :
    ShipDB :=
  if newSubs = [] then db
  else
    let existingKeys :=
      (db.subs.filter (fun s => decide (s.shipKey = shipKey))).map (·.key)
    let db1 : ShipDB :=
      if existingKeys = [] then db
      else
        { subs := db.subs.filter (fun s => decide (s.shipKey ≠ shipKey))
          children := db.children.filter (fun c =>
            match c.subKey with
            | none => true
            | some sk => decide (sk ∉ existingKeys))
          nextSubKey := db.nextSubKey }
    { subs := db1.subs ++
        (List.range newSubs.length).map (fun i => ⟨db1.nextSubKey + i, shipKey, false⟩)
      children := db1.children
      nextSubKey := db1.nextSubKey + newSubs.length }

/-! ## Header fact upserts (`upsert_ar` header, `upsert_csl` header) -/

/-- A `FactAccountsReceivableTransaction` header row.  The mapped columns are
abstracted into one payload value `vals`; `number` is the natural business
key (the parser's `text()` yields `""` when the document has no `Number`
node, never `None`). -/
structure ARHeaderRow where
  key : Nat
  number : String
  vals : Int
deriving DecidableEq, Repr

/-- The AR header table with its identity counter. -/
structure ARHeaderDB where
  rows : List ARHeaderRow
  nextKey : Nat
deriving DecidableEq, Repr

/-- The header upsert of `upsert_ar`: select by `Number`; on a hit update the
mapped columns of every row with that `Number`; on a miss insert (the row
including the `Number`) and re-select by `Number`. -/
def upsert_ar_header (number : String) (vals : Int) (db : ARHeaderDB) :
    Option Nat × ARHeaderDB :=
  match db.rows.find? (fun r => decide (r.number = number)) with
  | some r =>
    (some r.key,
     { db with rows := db.rows.map (fun x =>
         if x.number = number then { x with vals := vals } else x) })
  | none =>
    let rows' := db.rows ++ [⟨db.nextKey, number, vals⟩]
    (match rows'.find? (fun r => decide (r.number = number)) with
     | some r => some r.key
     | none => none,
     { rows := rows', nextKey := db.nextKey + 1 })

/-- A `FactShipment` header row keyed by the optional `ShipmentJobKey`. -/
structure CslHeaderRow where
  key : Nat
  jobKey : Option Nat
  vals : Int
deriving DecidableEq, Repr

/-- The CSL shipment header table with its identity counter. -/
structure CslHeaderDB where
  rows : List CslHeaderRow
  nextKey : Nat
deriving DecidableEq, Repr

/-- The header upsert of `upsert_csl`: with a (truthy) shipment job key,
select by `ShipmentJobKey` and update the found row in place, else insert and
re-select the greatest key with that job key; with no job key, always insert
and read back the greatest key of the table — there is no update path. -/
def upsert_csl_header (jobKey : Option Nat) (vals : Int) (db : CslHeaderDB) :
    Option Nat × CslHeaderDB :=
  match jobKey with
  | some jk =>
    match db.rows.find? (fun r => decide (r.jobKey = some jk)) with
    | some r =>
      (some r.key,
       { db with rows := db.rows.map (fun x =>
           if x.key = r.key then { x with vals := vals } else x) })
    | none =>
      let rows' := db.rows ++ [⟨db.nextKey, some jk, vals⟩]
      (((rows'.filter (fun r => decide (r.jobKey = some jk))).map (·.key)).max?,
       { rows := rows', nextKey := db.nextKey + 1 })
  | none =>
    let rows' := db.rows ++ [⟨db.nextKey, none, vals⟩]
    ((rows'.map (·.key)).max?, { rows := rows', nextKey := db.nextKey + 1 })

/-! ## The Dimension Resolver (`_upsert_scalar_dim` with its per-run caches) -/

/-- The cached attribute signature: `(curr_attrs_name, sorted extra items)`. -/
abbrev AttrSig := Option String × List (String × Option String)

/-- A dimension row (of any dimension table, discriminated by `table`). -/
structure DimRow where
  table : String
  key : Nat
  code : String
  name : Option String
  attrs : List (String × Option String)
deriving DecidableEq, Repr

/-- The statements `_upsert_scalar_dim` can issue, in order. -/
inductive DimStmt where
  | updateStmt (table code : String)
  | insertStmt (table code : String)
  | selectStmt (table code : String)
deriving DecidableEq, Repr

/-- Write statements are updates and inserts; selects are reads. -/
def DimStmt.isWrite : DimStmt → Bool
  | updateStmt _ _ => true
  | insertStmt _ _ => true
  | selectStmt _ _ => false

/-- The resolver state: the dimension rows, the identity counter, and the
per-run key and attribute-signature caches (`_DIM_KEY_CACHE`,
`_DIM_ATTR_CACHE`, keyed by `(table_sql, code)`). -/
structure DimState where
  rows : List DimRow
  nextKey : Nat
  keyCache : List ((String × String) × Nat)
  attrCache : List ((String × String) × AttrSig)
deriving DecidableEq, Repr

/-- The exceptions of the resolver: the explicit `ValueError` when `key_col`
is missing, and the database error raised by the malformed insert (see
`upsert_scalar_dim`). -/
inductive DimErr where
  | valueErrorKeyCol
  | insertSqlError
deriving DecidableEq, Repr

/-- Association-list lookup for the two caches. -/
def lookupPair {β : Type} : List ((String × String) × β) → String × String → Option β
  | [], _ => none
  | (k', v) :: rest, k => if k' = k then some v else lookupPair rest k

/-- Cache assignment (newest binding shadows older ones). -/
def setPair {β : Type} (l : List ((String × String) × β)) (k : String × String)
    (v : β) : List ((String × String) × β) :=
  (k, v) :: l

/-- Split at the first dot (`table.split(".", 1)`). -/
def splitFirstDot : List Char → Option (List Char × List Char)
  | [] => none
  | '.' :: rest => some ([], rest)
  | c :: rest =>
    match splitFirstDot rest with
    | some (a, b) => some (c :: a, b)
    | none => none

/-- Table quoting of the source: keep a name already containing `[`, else
bracket the schema (the part before the first dot) and the rest. -/
def quoteTable (t : String) : String :=
  if t.toList.contains '[' then t
  else
    match splitFirstDot t.toList with
    | some (sch, rest) => "[" ++ sch.asString ++ "].[" ++ rest.asString ++ "]"
    | none => "[" ++ t ++ "]"

/-- Ordered insertion for `sorted(...)` over the extra attribute items; the
call sites use distinct dict keys, so comparison never reaches the values. -/
def insertSortedPair (p : String × Option String) :
    List (String × Option String) → List (String × Option String)
  | [] => [p]
  | q :: rest =>
    if p.1 ≤ q.1 then p :: q :: rest else q :: insertSortedPair p rest

/-- `tuple(sorted(items))` over the cleaned extra attribute items. -/
def sortPairs (l : List (String × Option String)) :
    List (String × Option String) :=
  l.foldr insertSortedPair []

/-- Set one attribute column of a row. -/
def setAttr (attrs : List (String × Option String)) (k : String)
    (v : Option String) : List (String × Option String) :=
  match attrs with
  | [] => [(k, v)]
  | (k', v') :: rest => if k' = k then (k, v) :: rest else (k', v') :: setAttr rest k v

/-- Apply a list of column assignments to a row's attribute columns. -/
def applyAttrs (upd : List (String × Option String))
    (attrs : List (String × Option String)) : List (String × Option String) :=
  upd.foldl (fun a kv => setAttr a kv.1 kv.2) attrs

/-- The current attribute signature computed by `_upsert_scalar_dim` from its
arguments: the (fallback-substituted) name when `name_col` is truthy, and the
sorted cleaned extra items. -/
def dimSig (codeArg : String) (nameCol nameArg : Option String)
    (extraCols : List (String × Option String)) : AttrSig :=
  let code := cleanStr codeArg
  let name0 := cleanOpt nameArg
  let name : Option String :=
    if nameCol.isSome && (name0 = none || pyStrip (name0.getD "") = "") then some code
    else name0
  ((if optTruthy nameCol then name else none),
   sortPairs (extraCols.map (fun kv => (kv.1, cleanOpt kv.2))))

/-- `_upsert_scalar_dim` of the source.  Returns the key result (or the
exception that escaped), the ordered statements that executed successfully,
and the new state.  An empty code returns `None` before any statement; a
missing `key_col` raises `ValueError`.  On a key-cache hit an update is
issued only when the attribute signature changed.  On a miss the
update-then-select sequence runs; when no row exists the code reaches its
insert, but the insert's SQL text is built as
`f"INSERT INTO {table_sql} ([" + "],[".join(cols) + "]) VALUES ({placeholders})"`
— only the first concatenated literal is an f-string, so the statement sent
to the database ends with the literal text `VALUES ({placeholders})` and is
always rejected; the raised error propagates to the caller (re-raised after
the optional log line) with the caches unfilled. -/
def upsert_scalar_dim (table codeArg : String) (nameCol nameArg : Option String)
    (extraCols : List (String × Option String)) (keyCol : Option String)
    (st : DimState) : Except DimErr (Option Nat) × List DimStmt × DimState :=
  let code := cleanStr codeArg
  if code = "" then (.ok none, [], st)
  else if !(optTruthy keyCol) then (.error .valueErrorKeyCol, [], st)
  else
    let name0 := cleanOpt nameArg
    let name : Option String :=
      if nameCol.isSome && (name0 = none || pyStrip (name0.getD "") = "") then some code
      else name0
    let tableSql := quoteTable table
    let sig := dimSig codeArg nameCol nameArg extraCols
    let currExtra := sig.2
    let ck := (tableSql, code)
    let prev := lookupPair st.attrCache ck
    match lookupPair st.keyCache ck with
    | some k =>
      if (optTruthy nameCol || !extraCols.isEmpty) && prev ≠ some sig then
        let setParts : List (String × Option String) :=
          (if optTruthy nameCol && sig.1 ≠ none then [(nameCol.getD "", sig.1)] else [])
            ++ currExtra
        if setParts.isEmpty then (.ok (some k), [], st)
        else
          (.ok (some k), [.updateStmt tableSql code],
            { st with
              rows := st.rows.map (fun r =>
                if r.table = tableSql && r.code = code then
                  { r with
                    name := if optTruthy nameCol && sig.1 ≠ none then sig.1 else r.name,
                    attrs := applyAttrs currExtra r.attrs }
                else r),
              attrCache := setPair st.attrCache ck sig })
      else (.ok (some k), [], st)
    | none =>
      let stmts1 : List DimStmt :=
        (if optTruthy nameCol && name ≠ none then [.updateStmt tableSql code] else [])
          ++ (if !extraCols.isEmpty then [.updateStmt tableSql code] else [])
      let rows1 := st.rows.map (fun r =>
        if r.table = tableSql && r.code = code then
          { r with
            name := if optTruthy nameCol && name ≠ none then name else r.name,
            attrs := if !extraCols.isEmpty then
                (applyAttrs (extraCols.map (fun kv => (kv.1, cleanOpt kv.2))) r.attrs)
              else r.attrs }
        else r)
      match rows1.find? (fun r => decide (r.table = tableSql ∧ r.code = code)) with
      | some r =>
        (.ok (some r.key), stmts1 ++ [.selectStmt tableSql code],
          { st with
            rows := rows1,
            keyCache := setPair st.keyCache ck r.key,
            attrCache := setPair st.attrCache ck sig })
      | none =>
        -- the malformed insert statement is rejected by the database and the
        -- exception escapes before any cache is filled
        (.error .insertSqlError, stmts1 ++ [.selectStmt tableSql code],
          { st with rows := rows1 })

/-- The `ensure_*` caller shape around `_upsert_scalar_dim` (for example
`ensure_country`): on any exception from the typed helper, execute the
dynamic `IF NOT EXISTS ... INSERT ...; ELSE UPDATE ...;` statement followed
by a select of the surrogate key.  The fallback touches neither cache. -/
def ensure_dim (table codeArg : String) (nameCol nameArg : Option String)
    (extraCols : List (String × Option String)) (keyCol : Option String)
    (st : DimState) : Option Nat × List DimStmt × DimState :=
  match upsert_scalar_dim table codeArg nameCol nameArg extraCols keyCol st with
  | (.ok r, stmts, st') => (r, stmts, st')
  | (.error _, stmts, st') =>
    let code := cleanStr codeArg
    let name0 := cleanOpt nameArg
    let name := if name0 = none || pyStrip (name0.getD "") = "" then some code else name0
    let tableSql := quoteTable table
    match st'.rows.find? (fun r => decide (r.table = tableSql ∧ r.code = code)) with
    | some _ =>
      let rows2 := st'.rows.map (fun x =>
        if x.table = tableSql && x.code = code then { x with name := name } else x)
      let st2 := { st' with rows := rows2 }
      (match rows2.find? (fun r2 => decide (r2.table = tableSql ∧ r2.code = code)) with
        | some r2 => some r2.key
        | none => none,
       stmts ++ [.updateStmt tableSql code, .selectStmt tableSql code], st2)
    | none =>
      let newRow : DimRow :=
        { table := tableSql, key := st'.nextKey, code := code, name := name,
          attrs := extraCols.map (fun kv => (kv.1, cleanOpt kv.2)) }
      let rows2 := st'.rows ++ [newRow]
      let st2 := { st' with rows := rows2, nextKey := st'.nextKey + 1 }
      (match rows2.find? (fun r2 => decide (r2.table = tableSql ∧ r2.code = code)) with
        | some r2 => some r2.key
        | none => none,
       stmts ++ [.insertStmt tableSql code, .selectStmt tableSql code], st2)

/-! ## The batch controller (`main` of `load_by_date.py`, `load_by_range.py`) -/

/-- Outcome of processing one file through the upsert pipeline. -/
inductive FileOutcome where
  | ok
  | exc
deriving DecidableEq, Repr

/-- One requested date: its folder is missing, or it holds a file list. -/
inductive DayInput where
  | missing
  | files (fs : List FileOutcome)
deriving DecidableEq, Repr

/-- Sequential per-file processing of one day inside the single `try` of
`main`: the count of files processed before any exception, and whether an
exception escaped.  There is no per-file handler in the source. -/
def processFiles : List FileOutcome → Nat × Bool
  | [] => (0, false)
  | .ok :: rest =>
    let r := processFiles rest
    (r.1 + 1, r.2)
  | .exc :: _ => (0, true)

/-- The date loop of `main`: a missing folder is skipped in range mode but
returns exit code 1 in single-day mode; an exception from any file's
processing escapes the whole loop and is caught only by the outermost
handler, which sets exit status 1.  Returns `(status, files processed)`. -/
def runDays (isRange : Bool) : List DayInput → Nat → Nat × Nat
  | [], acc => (0, acc)
  | .missing :: rest, acc =>
    if isRange then runDays isRange rest acc else (1, acc)
  | .files fs :: rest, acc =>
    let r := processFiles fs
    if r.2 then (1, acc + r.1) else runDays isRange rest (acc + r.1)

/-- `main` of `load_by_date.py`, restricted to its control flow:
`(exit status, number of files processed)`. -/
def load_by_date_main (isRange : Bool) (days : List DayInput) : Nat × Nat :=
  runDays isRange days 0

/-- `main` of `load_by_range.py`: every day is run as a subprocess whose exit
status is printed and otherwise ignored; the driver always advances to the
next day and finally returns 0 with the count of days attempted. -/
def load_by_range_main : List Nat → Nat → Nat × Nat
  | [], acc => (0, acc)
  | _ :: rest, acc => load_by_range_main rest (acc + 1)

/-! ## Helper lemmas -/

/-- `toList` undoes `asString` definitionally. -/
theorem toList_asString (l : List Char) : (List.asString l).toList = l := rfl

/-- A prefix of successes followed by an exception: the exception escapes
after exactly the prefix was processed. -/
theorem processFiles_ok_then_exc (fs₁ fs₂ : List FileOutcome)
    (hok : ∀ f ∈ fs₁, f = FileOutcome.ok) :
    processFiles (fs₁ ++ FileOutcome.exc :: fs₂) = (fs₁.length, true) := by
  induction fs₁ with
  | nil => rfl
  | cons f rest ih =>
    have hf : f = FileOutcome.ok := hok f (List.mem_cons_self _ _)
    subst hf
    have : processFiles (rest ++ FileOutcome.exc :: fs₂) = (rest.length, true) :=
      ih (fun x hx => hok x (List.mem_cons_of_mem _ hx))
    simp [processFiles, this]

/-- The range driver's day loop counts days and always finishes with status 0. -/
theorem load_by_range_main_closed (statuses : List Nat) (acc : Nat) :
    load_by_range_main statuses acc = (0, acc + statuses.length) := by
  induction statuses generalizing acc with
  | nil => simp [load_by_range_main]
  | cons s rest ih => simp [load_by_range_main, ih, Nat.add_comm, Nat.add_assoc, Nat.add_left_comm]

/-! ## Claim theorems -/

/-- C10, counterexample: `parse_datekey " 2025-07-08"` returns `20250708`
although the string does not begin with the `dddd-dd-dd` shape (it begins
with a space), where the claim requires `None`; the spec-shaped rule without
stripping returns `None` on the same input. -/
theorem parse_datekey_strips_before_match :
    parse_datekey (some " 2025-07-08") = some 20250708 ∧
    datekeySpecShape (some " 2025-07-08") = none := by
  constructor <;> rfl

/-- C10, amended: both date-key parsers are total functions that agree with
each other on every input, and both return exactly the YYYYMMDD integer of
the first ten characters of the *whitespace-stripped* input when that
stripped string begins with the `dddd-dd-dd` shape, and `None` otherwise
(including `None` and empty input). -/
theorem datekey_parsers_total_agree (s : Option String) :
    datekey_from_iso s = parse_datekey s ∧
    parse_datekey s = datekeySpecShape (some (pyStrip (s.getD ""))) := by
  refine ⟨?_, rfl⟩
  cases s with
  | none => rfl
  | some str =>
    by_cases h : str = ""
    · subst h; rfl
    · simp [datekey_from_iso, parse_datekey, h]

/-- C9, counterexample: for a base name matching neither file pattern, a
folder date of `"12345678\n"` (nine characters, not an 8-digit string, where
the claim requires a `None` date key) still yields date key `12345678`,
because `$` in `re.match(r"^\d{8}$", ...)` also matches just before a final
newline. -/
theorem folder_date_trailing_newline_datekey :
    parse_file_ingestion "TEST.xml" (some "12345678\n") =
      (none, "TEST.xml", some 12345678, none) ∧
    ("12345678\n").length = 9 := by
  constructor <;> rfl

/-- C9, amended: when the base name matches neither the AR nor the CSL
pattern, the source tag comes from the upper-cased name's `AR_`/`CSL`
leading characters alone, the time is `None`, and the date key is the integer
of the folder date's first eight characters exactly when the folder date is
eight digits optionally followed by one final newline (the `$` rule), else
`None`. -/
theorem file_ingestion_no_match_behavior (path : String) (fd : Option String)
    (har : arMatch (basenameList path.toList) = none)
    (hcsl : cslMatch (basenameList path.toList) = none) :
    parse_file_ingestion path fd =
      ((if pyStartsWith (pyUpper ((basenameList path.toList).asString)) "AR_" then some "AR"
        else if pyStartsWith (pyUpper ((basenameList path.toList).asString)) "CSL" then some "CSL"
        else none),
       (basenameList path.toList).asString,
       (match fd with
        | some s => if matchD8 s.toList then some (digitsVal (s.toList.take 8)) else none
        | none => none),
       none) := by
  have hbn : ((basenameList path.toList).asString).toList = basenameList path.toList :=
    toList_asString _
  simp only [parse_file_ingestion, hbn, har, hcsl]
  cases fd with
  | none => rfl
  | some s =>
    by_cases hs : s = ""
    · subst hs; rfl
    · simp [hs]

/-- C9, witness for the amended theorem at a concrete unmatched name and an
ordinary folder date. -/
theorem file_ingestion_no_match_behavior_witness :
    arMatch (basenameList ("X.xml").toList) = none ∧
    cslMatch (basenameList ("X.xml").toList) = none ∧
    parse_file_ingestion "X.xml" (some "20250707") =
      ((if pyStartsWith (pyUpper ((basenameList ("X.xml").toList).asString)) "AR_" then some "AR"
        else if pyStartsWith (pyUpper ((basenameList ("X.xml").toList).asString)) "CSL" then some "CSL"
        else none),
       (basenameList ("X.xml").toList).asString,
       (match (some "20250707" : Option String) with
        | some s => if matchD8 s.toList then some (digitsVal (s.toList.take 8)) else none
        | none => none),
       none) :=
  ⟨by rfl, by rfl, file_ingestion_no_match_behavior "X.xml" (some "20250707") (by rfl) (by rfl)⟩

/-- C8, counterexample: in a multi-file, multi-day run (range mode with
`--from` and `--to`) an exception on the second file aborts the whole run with exit status 1
after processing only the first file; the remaining file of the run — the
claim requires it to be processed — is never reached. -/
theorem exception_aborts_multifile_run :
    load_by_date_main true
      [DayInput.files [FileOutcome.ok, FileOutcome.exc], DayInput.files [FileOutcome.ok]]
      = (1, 1) := by rfl

/-- C8, amended: an unexpected exception while processing any file aborts the
whole `load_by_date` run — in single-day and in range mode alike — with exit
status 1, processing exactly the files before it; continuation across
failures exists only at day granularity in the separate `load_by_range`
driver, which runs each day as a subprocess, ignores its exit status, and
always finishes with status 0 after attempting every day. -/
theorem run_abort_and_range_continue (mode : Bool) (fs₁ fs₂ : List FileOutcome)
    (rest : List DayInput) (statuses : List Nat)
    (hok : ∀ f ∈ fs₁, f = FileOutcome.ok) :
    load_by_date_main mode (DayInput.files (fs₁ ++ FileOutcome.exc :: fs₂) :: rest)
      = (1, fs₁.length) ∧
    load_by_range_main statuses 0 = (0, statuses.length) := by
  refine ⟨?_, by simpa using load_by_range_main_closed statuses 0⟩
  simp [load_by_date_main, runDays, processFiles_ok_then_exc fs₁ fs₂ hok]

/-- C8, witness: the amended theorem at one ok file before the exception, one
day after, and two recorded day statuses. -/
theorem run_abort_and_range_continue_witness :
    (∀ f ∈ [FileOutcome.ok], f = FileOutcome.ok) ∧
    (load_by_date_main true
        (DayInput.files ([FileOutcome.ok] ++ FileOutcome.exc :: [FileOutcome.ok])
          :: [DayInput.files [FileOutcome.ok]]) = (1, [FileOutcome.ok].length) ∧
     load_by_range_main [1, 0] 0 = (0, ([1, 0] : List Nat).length)) :=
  ⟨by decide,
   run_abort_and_range_continue true [FileOutcome.ok] [FileOutcome.ok]
     [DayInput.files [FileOutcome.ok]] [1, 0] (by decide)⟩

/-- C7, counterexample: resolving a whitespace-only natural key returns
`Ok None` — no exception of any kind is raised (no `InvalidKeyError` exists
anywhere in the source), no surrogate key is returned, no statement is
issued, and the state is untouched. -/
theorem empty_code_returns_none_not_error :
    upsert_scalar_dim "Dwh2.DimCountry" "   " (some "Name") (some "Colombia") []
      (some "CountryKey") ⟨[], 1, [], []⟩ =
    (Except.ok none, [], ⟨[], 1, [], []⟩) := by rfl

/-- C7, amended: for every natural key that is empty after whitespace
normalization, the resolver returns `None` (it does not raise, returns no
surrogate key, issues no statement, and leaves the state unchanged). -/
theorem empty_code_no_write_no_raise (table codeArg : String)
    (nameCol nameArg : Option String) (extraCols : List (String × Option String))
    (keyCol : Option String) (st : DimState) (h : cleanStr codeArg = "") :
    upsert_scalar_dim table codeArg nameCol nameArg extraCols keyCol st =
      (Except.ok none, [], st) := by
  unfold upsert_scalar_dim
  simp [h]

/-- C7, witness for the amended theorem at a tab-and-space key. -/
theorem empty_code_no_write_no_raise_witness :
    cleanStr " \t " = "" ∧
    upsert_scalar_dim "Dwh2.DimPort" " \t " (some "Name") none [] (some "PortKey")
        ⟨[], 3, [], []⟩ = (Except.ok none, [], ⟨[], 3, [], []⟩) :=
  ⟨by rfl,
   empty_code_no_write_no_raise "Dwh2.DimPort" " \t " (some "Name") none [] (some "PortKey")
     ⟨[], 3, [], []⟩ (by rfl)⟩

/-- C6, code bug: resolving a brand-new natural key (empty caches, empty
table), then resolving it a second time with the identical attribute
signature, issues one UPDATE write statement on the second call — the claim
(and the evident intent) require zero.  The first call's typed insert can
never succeed: its SQL text ends with the literal characters
`VALUES ({placeholders})` (only the first concatenated literal carries the
`f` marker), so the statement is rejected, the exception escapes before the
caches are filled, and the caller's dynamic fallback inserts the row without
caching.  The third identical call then issues zero statements and a fourth
call with one changed attribute issues exactly one UPDATE, as claimed. -/
theorem dim_second_resolution_issues_update :
    (ensure_dim "Dwh2.DimCountry" "CO" (some "Name") (some "Colombia") []
        (some "CountryKey")
        (ensure_dim "Dwh2.DimCountry" "CO" (some "Name") (some "Colombia") []
          (some "CountryKey") ⟨[], 1, [], []⟩).2.2).2.1.countP DimStmt.isWrite = 1 ∧
    (ensure_dim "Dwh2.DimCountry" "CO" (some "Name") (some "Colombia") []
        (some "CountryKey")
        (ensure_dim "Dwh2.DimCountry" "CO" (some "Name") (some "Colombia") []
          (some "CountryKey")
          (ensure_dim "Dwh2.DimCountry" "CO" (some "Name") (some "Colombia") []
            (some "CountryKey") ⟨[], 1, [], []⟩).2.2).2.2).2.1 = [] ∧
    (ensure_dim "Dwh2.DimCountry" "CO" (some "Name") (some "Bolivia") []
        (some "CountryKey")
        (ensure_dim "Dwh2.DimCountry" "CO" (some "Name") (some "Colombia") []
          (some "CountryKey")
          (ensure_dim "Dwh2.DimCountry" "CO" (some "Name") (some "Colombia") []
            (some "CountryKey")
            (ensure_dim "Dwh2.DimCountry" "CO" (some "Name") (some "Colombia") []
              (some "CountryKey") ⟨[], 1, [], []⟩).2.2).2.2).2.2).2.1
      = [DimStmt.updateStmt "[Dwh2].[DimCountry]" "CO"] := by
  refine ⟨?_, ?_, ?_⟩ <;> rfl

/-- C5, counterexample: an AR document with an absent business key — the
parser's `text()` yields the empty string for a missing `Number` node —
is *not* always inserted: the second ingestion finds the previous
empty-`Number` row by equality and updates it in place, leaving exactly one
header row where the claim requires a fresh insert per run. -/
theorem ar_empty_number_upserts_in_place :
    (upsert_ar_header "" 150 (upsert_ar_header "" 100 ⟨[], 1⟩).2).2.rows
      = [⟨1, "", 150⟩] := by rfl

/-- C1, counterexample: the AR-level additional-reference pass issues no
delete, so reconciling the same single-record batch twice leaves two rows for
the `(parent, 'AR')` scope, where the claim requires the row set to equal the
one-element deduplicated input. -/
theorem ar_refs_pass_accumulates :
    (ar_refs_pass 7 [⟨some "INV", some "R1"⟩]
        (ar_refs_pass 7 [⟨some "INV", some "R1"⟩] [])).countP
      (fun row => decide (row.arKey = some 7 ∧ row.source = "AR")) = 2 := by rfl

/-- C3, counterexample: two leg records agreeing on origin, destination,
mode, voyage, order and all six timestamps, one carrying only the free-text
vessel name and the other the registry number, get *different* dedup keys —
the registry preference is per record, not cross-record — so both survive
deduplication and the AR pass inserts two rows, where the claim requires
them to collapse to one. -/
theorem leg_key_name_vs_registry_no_collapse :
    leg_key ⟨some ("USNYC", ""), some ("NLRTM", ""), some "Sea", some "MSC OSCAR",
        none, some "123", some 1, none, none, none, none, none, none⟩ ≠
      leg_key ⟨some ("USNYC", ""), some ("NLRTM", ""), some "Sea", none,
        some "9703291", some "123", some 1, none, none, none, none, none, none⟩ ∧
    dedupByKey leg_key
      [⟨some ("USNYC", ""), some ("NLRTM", ""), some "Sea", some "MSC OSCAR",
          none, some "123", some 1, none, none, none, none, none, none⟩,
       ⟨some ("USNYC", ""), some ("NLRTM", ""), some "Sea", none,
          some "9703291", some "123", some 1, none, none, none, none, none, none⟩] =
      [⟨some ("USNYC", ""), some ("NLRTM", ""), some "Sea", some "MSC OSCAR",
          none, some "123", some 1, none, none, none, none, none, none⟩,
       ⟨some ("USNYC", ""), some ("NLRTM", ""), some "Sea", none,
          some "9703291", some "123", some 1, none, none, none, none, none, none⟩] ∧
    (ar_legs_pass 1
      [⟨some ("USNYC", ""), some ("NLRTM", ""), some "Sea", some "MSC OSCAR",
          none, some "123", some 1, none, none, none, none, none, none⟩,
       ⟨some ("USNYC", ""), some ("NLRTM", ""), some "Sea", none,
          some "9703291", some "123", some 1, none, none, none, none, none, none⟩]
      []).length = 2 := by
  refine ⟨by decide, by rfl, by rfl⟩

/-- C3, amended: the registry preference is applied per record — a record's
vessel identity is its trimmed Lloyds/IMO number when non-empty, else its
upper-cased trimmed name.  Two records agreeing on all other key fields
collapse to one surviving row when both carry the same (non-empty) registry
number, regardless of their free-text names; a name-only record and a
registry-carrying record do not collapse (see the counterexample). -/
theorem leg_key_registry_per_record (a b : LegRec)
    (hpol : a.portOfLoading = b.portOfLoading)
    (hpod : a.portOfDischarge = b.portOfDischarge)
    (hmode : a.transportMode = b.transportMode)
    (hvoy : a.voyageFlightNo = b.voyageFlightNo)
    (hord : a.order = b.order)
    (ht1 : a.actualArrival = b.actualArrival)
    (ht2 : a.actualDeparture = b.actualDeparture)
    (ht3 : a.estimatedArrival = b.estimatedArrival)
    (ht4 : a.estimatedDeparture = b.estimatedDeparture)
    (ht5 : a.scheduledArrival = b.scheduledArrival)
    (ht6 : a.scheduledDeparture = b.scheduledDeparture)
    (himo : normOpt a.vesselLloydsIMO = normOpt b.vesselLloydsIMO)
    (hhas : normOpt a.vesselLloydsIMO ≠ "") :
    (leg_key a).vessel = normOpt a.vesselLloydsIMO ∧
    leg_key a = leg_key b ∧
    dedupByKey leg_key [a, b] = [a] := by
  have hhb : normOpt b.vesselLloydsIMO ≠ "" := himo ▸ hhas
  have hva : (leg_key a).vessel = normOpt a.vesselLloydsIMO := by
    simp [leg_key, hhas]
  have hkey : leg_key a = leg_key b := by
    simp only [leg_key, LegKey.mk.injEq, hpol, hpod, hmode, hvoy, hord,
      ht1, ht2, ht3, ht4, ht5, ht6, if_pos hhas, if_pos hhb, himo]
  refine ⟨hva, hkey, ?_⟩
  simp [dedupByKey, dedupKeep, hkey]

/-- C3, witness: two records both carrying registry number `9703291` with
differently-cased names collapse to the first. -/
theorem leg_key_registry_per_record_witness :
    normOpt ((⟨some ("USNYC", ""), some ("NLRTM", ""), some "Sea", some "MSC OSCAR",
        some "9703291", some "123", some 1, none, none, none, none, none,
        none⟩ : LegRec)).vesselLloydsIMO =
      normOpt ((⟨some ("USNYC", ""), some ("NLRTM", ""), some "Sea", some "msc oscar",
        some "9703291", some "123", some 1, none, none, none, none, none,
        none⟩ : LegRec)).vesselLloydsIMO ∧
    normOpt ((⟨some ("USNYC", ""), some ("NLRTM", ""), some "Sea", some "MSC OSCAR",
        some "9703291", some "123", some 1, none, none, none, none, none,
        none⟩ : LegRec)).vesselLloydsIMO ≠ "" ∧
    ((leg_key ⟨some ("USNYC", ""), some ("NLRTM", ""), some "Sea", some "MSC OSCAR",
        some "9703291", some "123", some 1, none, none, none, none, none, none⟩).vessel
        = normOpt (some "9703291") ∧
     leg_key ⟨some ("USNYC", ""), some ("NLRTM", ""), some "Sea", some "MSC OSCAR",
        some "9703291", some "123", some 1, none, none, none, none, none, none⟩
        = leg_key ⟨some ("USNYC", ""), some ("NLRTM", ""), some "Sea", some "msc oscar",
        some "9703291", some "123", some 1, none, none, none, none, none, none⟩ ∧
     dedupByKey leg_key
        [⟨some ("USNYC", ""), some ("NLRTM", ""), some "Sea", some "MSC OSCAR",
            some "9703291", some "123", some 1, none, none, none, none, none, none⟩,
         ⟨some ("USNYC", ""), some ("NLRTM", ""), some "Sea", some "msc oscar",
            some "9703291", some "123", some 1, none, none, none, none, none, none⟩] =
        [⟨some ("USNYC", ""), some ("NLRTM", ""), some "Sea", some "MSC OSCAR",
            some "9703291", some "123", some 1, none, none, none, none, none, none⟩]) :=
  ⟨rfl, by decide,
   leg_key_registry_per_record _ _ rfl rfl rfl rfl rfl rfl rfl rfl rfl rfl rfl rfl
     (by decide)⟩

/-- C4, confirmed: two leg records identical in every dedup-key field except
the casing of the (trimmed) vessel name get equal `_leg_key2` keys, in-batch
deduplication keeps only the first, and the whole statement list of the
sub-shipment pass — computed from the already-deduplicated batch before the
delete and inserts are issued — is the same as for the single record, so
exactly one row is retained. -/
theorem leg_dedup_case_insensitive_vessel (a b : LegRec) (sub : Nat)
    (db : List TLegRow)
    (hpol : a.portOfLoading = b.portOfLoading)
    (hpod : a.portOfDischarge = b.portOfDischarge)
    (hmode : a.transportMode = b.transportMode)
    (himo : a.vesselLloydsIMO = b.vesselLloydsIMO)
    (hvoy : a.voyageFlightNo = b.voyageFlightNo)
    (hord : a.order = b.order)
    (ht1 : a.actualArrival = b.actualArrival)
    (ht2 : a.actualDeparture = b.actualDeparture)
    (ht3 : a.estimatedArrival = b.estimatedArrival)
    (ht4 : a.estimatedDeparture = b.estimatedDeparture)
    (ht5 : a.scheduledArrival = b.scheduledArrival)
    (ht6 : a.scheduledDeparture = b.scheduledDeparture)
    (hname : pyUpper (normOpt a.vesselName) = pyUpper (normOpt b.vesselName)) :
    leg_key2 a = leg_key2 b ∧
    dedupByKey leg_key2 [a, b] = [a] ∧
    sub_legs_pass sub [a, b] db = sub_legs_pass sub [a] db ∧
    ((sub_legs_pass sub [a, b] db).2.filter
        (fun r => decide (r.subKey = some sub))).map TLegRow.leg = [a] := by
  have hkey : leg_key2 a = leg_key2 b := by
    simp only [leg_key2, LegKey.mk.injEq, hpol, hpod, hmode, hvoy, hord,
      ht1, ht2, ht3, ht4, ht5, ht6, himo, eq_self_iff_true, true_and, and_true]
    split
    · rfl
    · exact hname
  have hd2 : dedupByKey leg_key2 [a, b] = [a] := by
    simp [dedupByKey, dedupKeep, hkey]
  have hd1 : dedupByKey leg_key2 [a] = [a] := by
    simp [dedupByKey, dedupKeep]
  have hpass : sub_legs_pass sub [a, b] db = sub_legs_pass sub [a] db := by
    simp [sub_legs_pass, hd1, hd2]
  refine ⟨hkey, hd2, hpass, ?_⟩
  rw [hpass]
  simp only [sub_legs_pass, hd1]
  rw [if_neg (by simp : ¬([a] : List LegRec) = [])]
  rw [List.filter_append]
  have h1 : (db.filter (fun r => decide (r.subKey ≠ some sub))).filter
      (fun r => decide (r.subKey = some sub)) = [] := by
    rw [List.filter_filter]
    apply List.filter_eq_nil_iff.mpr
    intro r _
    by_cases h : r.subKey = some sub <;> simp [h]
  simp [h1]

/-- C4, witness: the dedup theorem at two concrete records whose vessel names
differ only in casing, against an empty table. -/
theorem leg_dedup_case_insensitive_vessel_witness :
    pyUpper (normOpt ((⟨some ("USNYC", ""), some ("NLRTM", ""), some "Sea",
        some "MSC Oscar", none, some "123", some 1, none, none, none, none, none,
        none⟩ : LegRec)).vesselName) =
      pyUpper (normOpt ((⟨some ("USNYC", ""), some ("NLRTM", ""), some "Sea",
        some "MSC OSCAR", none, some "123", some 1, none, none, none, none, none,
        none⟩ : LegRec)).vesselName) ∧
    (leg_key2 ⟨some ("USNYC", ""), some ("NLRTM", ""), some "Sea", some "MSC Oscar",
        none, some "123", some 1, none, none, none, none, none, none⟩
      = leg_key2 ⟨some ("USNYC", ""), some ("NLRTM", ""), some "Sea", some "MSC OSCAR",
        none, some "123", some 1, none, none, none, none, none, none⟩ ∧
     dedupByKey leg_key2
        [⟨some ("USNYC", ""), some ("NLRTM", ""), some "Sea", some "MSC Oscar",
            none, some "123", some 1, none, none, none, none, none, none⟩,
         ⟨some ("USNYC", ""), some ("NLRTM", ""), some "Sea", some "MSC OSCAR",
            none, some "123", some 1, none, none, none, none, none, none⟩] =
        [⟨some ("USNYC", ""), some ("NLRTM", ""), some "Sea", some "MSC Oscar",
            none, some "123", some 1, none, none, none, none, none, none⟩] ∧
     sub_legs_pass 4
        [⟨some ("USNYC", ""), some ("NLRTM", ""), some "Sea", some "MSC Oscar",
            none, some "123", some 1, none, none, none, none, none, none⟩,
         ⟨some ("USNYC", ""), some ("NLRTM", ""), some "Sea", some "MSC OSCAR",
            none, some "123", some 1, none, none, none, none, none, none⟩] []
      = sub_legs_pass 4
        [⟨some ("USNYC", ""), some ("NLRTM", ""), some "Sea", some "MSC Oscar",
            none, some "123", some 1, none, none, none, none, none, none⟩] [] ∧
     ((sub_legs_pass 4
        [⟨some ("USNYC", ""), some ("NLRTM", ""), some "Sea", some "MSC Oscar",
            none, some "123", some 1, none, none, none, none, none, none⟩,
         ⟨some ("USNYC", ""), some ("NLRTM", ""), some "Sea", some "MSC OSCAR",
            none, some "123", some 1, none, none, none, none, none, none⟩] []).2.filter
          (fun r => decide (r.subKey = some 4))).map TLegRow.leg =
        [⟨some ("USNYC", ""), some ("NLRTM", ""), some "Sea", some "MSC Oscar",
            none, some "123", some 1, none, none, none, none, none, none⟩]) :=
  ⟨by rfl,
   leg_dedup_case_insensitive_vessel _ _ 4 [] rfl rfl rfl rfl rfl rfl rfl rfl rfl rfl
     rfl rfl (by rfl)⟩

/-- C1, amended: for the child-collection passes implemented as
dedup-then-delete-then-insert — shown here for the cited AR transport-leg
pass — the rows stored for the parent key after the pass are exactly the
in-batch deduplicated input (first occurrence per composite key), and
repeating the pass with the same input leaves the table unchanged, so
repeated reconciliation never accumulates rows.  (The AR-level
additional-reference pass is excluded: it issues no delete and accumulates —
see the counterexample.) -/
theorem replace_semantics_ar_legs_pass (factKey : Nat) (legs : List LegRec)
    (db : List TLegRow) :
    ((ar_legs_pass factKey legs db).filter
        (fun r => decide (r.arKey = some factKey))).map TLegRow.leg
      = dedupByKey leg_key legs ∧
    ar_legs_pass factKey legs (ar_legs_pass factKey legs db)
      = ar_legs_pass factKey legs db := by
  constructor
  · unfold ar_legs_pass
    rw [List.filter_append]
    have h1 : (db.filter (fun r => decide (r.arKey ≠ some factKey))).filter
        (fun r => decide (r.arKey = some factKey)) = [] := by
      rw [List.filter_filter]
      apply List.filter_eq_nil_iff.mpr
      intro r _
      by_cases h : r.arKey = some factKey <;> simp [h]
    have h2 : ((dedupByKey leg_key legs).map
          (fun l => (⟨none, none, some factKey, l⟩ : TLegRow))).filter
        (fun r => decide (r.arKey = some factKey)) =
        (dedupByKey leg_key legs).map
          (fun l => (⟨none, none, some factKey, l⟩ : TLegRow)) := by
      apply List.filter_eq_self.mpr
      intro r hr
      obtain ⟨l, _, rfl⟩ := List.mem_map.mp hr
      simp
    rw [h1, h2, List.nil_append, List.map_map]
    have hcomp : (TLegRow.leg ∘ fun l => (⟨none, none, some factKey, l⟩ : TLegRow)) = id := rfl
    rw [hcomp, List.map_id]
  · unfold ar_legs_pass
    have hqq : ((db.filter (fun r => decide (r.arKey ≠ some factKey)) ++
          (dedupByKey leg_key legs).map
            (fun l => (⟨none, none, some factKey, l⟩ : TLegRow))).filter
        (fun r => decide (r.arKey ≠ some factKey))) =
        db.filter (fun r => decide (r.arKey ≠ some factKey)) := by
      rw [List.filter_append]
      have ha : (db.filter (fun r => decide (r.arKey ≠ some factKey))).filter
          (fun r => decide (r.arKey ≠ some factKey)) =
          db.filter (fun r => decide (r.arKey ≠ some factKey)) := by
        rw [List.filter_filter]
        simp
      have hb : ((dedupByKey leg_key legs).map
            (fun l => (⟨none, none, some factKey, l⟩ : TLegRow))).filter
          (fun r => decide (r.arKey ≠ some factKey)) = [] := by
        apply List.filter_eq_nil_iff.mpr
        intro r hr
        obtain ⟨l, _, rfl⟩ := List.mem_map.mp hr
        simp
      rw [ha, hb, List.append_nil]
    rw [hqq]

/-- C2, confirmed: when a CSL document carrying at least one sub-shipment is
loaded for a shipment, every previously existing sub-shipment row of that
shipment — in particular every row created from AR (family-A) fallback data —
is deleted together with all child rows referencing those sub-shipment keys
(charge lines, packing lines, containers, event dates, job costing,
transport legs, additional references) before the document's sub-shipments
are inserted: afterwards no sub-shipment row of the shipment has fallback
provenance and no child row references a deleted sub-shipment key. -/
theorem csl_subshipments_replace_family_a (shipKey : Nat) (newSubs : List SubRec)
    (db : ShipDB) (hne : newSubs ≠ []) :
    (∀ s ∈ (csl_subshipments_pass shipKey newSubs db).subs,
        s.shipKey = shipKey → s.fromAR = false) ∧
    (∀ c ∈ (csl_subshipments_pass shipKey newSubs db).children, ∀ sk,
        c.subKey = some sk →
        sk ∉ ((db.subs.filter (fun s => decide (s.shipKey = shipKey))).map
          SubRow.key)) := by
  simp only [csl_subshipments_pass, if_neg hne]
  by_cases h : ((db.subs.filter (fun s => decide (s.shipKey = shipKey))).map
      SubRow.key) = []
  · rw [if_pos h]
    constructor
    · intro s hs hship
      rcases List.mem_append.mp hs with hmem | hmem
      · exfalso
        have hsf : s ∈ db.subs.filter (fun s => decide (s.shipKey = shipKey)) :=
          List.mem_filter.mpr ⟨hmem, by simp [hship]⟩
        have hk : s.key ∈ ((db.subs.filter
            (fun s => decide (s.shipKey = shipKey))).map SubRow.key) :=
          List.mem_map.mpr ⟨s, hsf, rfl⟩
        rw [h] at hk
        exact List.not_mem_nil _ hk
      · obtain ⟨i, _, rfl⟩ := List.mem_map.mp hmem
        rfl
    · intro c _ sk _
      rw [h]
      exact List.not_mem_nil _
  · rw [if_neg h]
    constructor
    · intro s hs hship
      rcases List.mem_append.mp hs with hmem | hmem
      · have hmf := List.mem_filter.mp hmem
        simp [hship] at hmf
      · obtain ⟨i, _, rfl⟩ := List.mem_map.mp hmem
        rfl
    · intro c hc sk hsk
      have hmf := List.mem_filter.mp hc
      have hp := hmf.2
      rw [hsk] at hp
      simpa using hp

/-- C2, witness: a shipment whose only sub-shipment (key 1) was created from
AR fallback data, with a dependent AR event-date row, reconciled against a
CSL document carrying one sub-shipment. -/
theorem csl_subshipments_replace_family_a_witness :
    (([⟨some "WB1"⟩] : List SubRec) ≠ []) ∧
    ((∀ s ∈ (csl_subshipments_pass 5 [⟨some "WB1"⟩]
          ⟨[⟨1, 5, true⟩], [⟨ChildTable.eventDate, some 1, some "AR"⟩], 2⟩).subs,
        s.shipKey = 5 → s.fromAR = false) ∧
     (∀ c ∈ (csl_subshipments_pass 5 [⟨some "WB1"⟩]
          ⟨[⟨1, 5, true⟩], [⟨ChildTable.eventDate, some 1, some "AR"⟩], 2⟩).children, ∀ sk,
        c.subKey = some sk →
        sk ∉ ((([⟨1, 5, true⟩] : List SubRow).filter
          (fun s => decide (s.shipKey = 5))).map SubRow.key))) :=
  ⟨by decide,
   csl_subshipments_replace_family_a 5 [⟨some "WB1"⟩]
     ⟨[⟨1, 5, true⟩], [⟨ChildTable.eventDate, some 1, some "AR"⟩], 2⟩ (by decide)⟩

/-- Count of rows carrying a given `Number` after one AR header upsert: a
fresh key gets exactly one row; an existing count is preserved (the upsert
updates in place). -/
theorem ar_countP_after_upsert (number : String) (v : Int) (d : ARHeaderDB) :
    (upsert_ar_header number v d).2.rows.countP
        (fun r => decide (r.number = number)) =
      if d.rows.countP (fun r => decide (r.number = number)) = 0 then 1
      else d.rows.countP (fun r => decide (r.number = number)) := by
  cases h : d.rows.find? (fun r => decide (r.number = number)) with
  | none =>
    have hz : d.rows.countP (fun r => decide (r.number = number)) = 0 := by
      apply List.countP_eq_zero.mpr
      intro a ha
      exact List.find?_eq_none.mp h a ha
    simp only [upsert_ar_header, h]
    rw [hz]
    simp [List.countP_append, hz]
  | some r =>
    have hm := List.mem_of_find?_eq_some h
    have hp := List.find?_some h
    have hpos : 0 < d.rows.countP (fun r => decide (r.number = number)) :=
      List.countP_pos_iff.mpr ⟨r, hm, hp⟩
    have hmap : (d.rows.map (fun x =>
          if x.number = number then { x with vals := v } else x)).countP
        (fun r => decide (r.number = number)) =
        d.rows.countP (fun r => decide (r.number = number)) := by
      rw [List.countP_map]
      apply List.countP_congr
      intro x _
      by_cases hx : x.number = number <;> simp [Function.comp, hx]
    simp only [upsert_ar_header, h, hmap]
    rw [if_neg (Nat.pos_iff_ne_zero.mp hpos)]

/-- After any AR header upsert, some row carries the given `Number`. -/
theorem ar_upsert_mem (number : String) (v : Int) (d : ARHeaderDB) :
    ∃ r ∈ (upsert_ar_header number v d).2.rows, r.number = number := by
  cases h : d.rows.find? (fun r => decide (r.number = number)) with
  | none =>
    refine ⟨⟨d.nextKey, number, v⟩, ?_, rfl⟩
    simp [upsert_ar_header, h]
  | some r =>
    have hm := List.mem_of_find?_eq_some h
    have hnum : r.number = number := by
      have := List.find?_some h
      simpa using this
    refine ⟨{ r with vals := v }, ?_, hnum⟩
    simp only [upsert_ar_header, h]
    exact List.mem_map.mpr ⟨r, hm, by simp [hnum]⟩

/-- When some row already carries the `Number`, the AR header upsert takes
the update path and adds no row. -/
theorem ar_upsert_len_of_mem (number : String) (v : Int) (d : ARHeaderDB)
    (hex : ∃ r ∈ d.rows, r.number = number) :
    (upsert_ar_header number v d).2.rows.length = d.rows.length := by
  obtain ⟨r, hr, hnum⟩ := hex
  cases h : d.rows.find? (fun r => decide (r.number = number)) with
  | none => exact absurd (List.find?_eq_none.mp h r hr) (by simp [hnum])
  | some r2 => simp [upsert_ar_header, h]

/-- When some row already carries the job key, the CSL header upsert takes
the update path and adds no row. -/
theorem csl_upsert_len_of_mem (jk : Nat) (w : Int) (d : CslHeaderDB)
    (hex : ∃ r ∈ d.rows, r.jobKey = some jk) :
    (upsert_csl_header (some jk) w d).2.rows.length = d.rows.length := by
  obtain ⟨r, hr, hjk⟩ := hex
  cases h : d.rows.find? (fun r => decide (r.jobKey = some jk)) with
  | none => exact absurd (List.find?_eq_none.mp h r hr) (by simp [hjk])
  | some r2 => simp [upsert_csl_header, h]

/-- C5, amended: re-ingestion inserts a new header row if and only if the
document is a CSL document with an absent shipment job key.  Every AR header
— including one whose `Number` is the empty string, the parser's encoding of
an absent `Number` node — is upserted in place: the second run adds zero rows
and exactly one row carries the key.  A CSL header with a job key behaves
the same; only a CSL header with no job key is inserted on every run with no
update path. -/
theorem header_insert_iff_csl_jobkey_absent
    (number : String) (v1 v2 : Int) (db : ARHeaderDB)
    (jk : Nat) (w1 w2 w3 : Int) (cdb : CslHeaderDB)
    (huniq : db.rows.countP (fun r => decide (r.number = number)) ≤ 1) :
    ((upsert_ar_header number v2 (upsert_ar_header number v1 db).2).2.rows.length
      = (upsert_ar_header number v1 db).2.rows.length) ∧
    ((upsert_ar_header number v2 (upsert_ar_header number v1 db).2).2.rows.countP
        (fun r => decide (r.number = number)) = 1) ∧
    ((upsert_csl_header (some jk) w2 (upsert_csl_header (some jk) w1 cdb).2).2.rows.length
      = (upsert_csl_header (some jk) w1 cdb).2.rows.length) ∧
    ((upsert_csl_header none w3 cdb).2.rows.length = cdb.rows.length + 1) := by
  refine ⟨?_, ?_, ?_, ?_⟩
  · exact ar_upsert_len_of_mem number v2 _ (ar_upsert_mem number v1 db)
  · rw [ar_countP_after_upsert, ar_countP_after_upsert]
    split_ifs <;> omega
  · apply csl_upsert_len_of_mem
    cases h : cdb.rows.find? (fun r => decide (r.jobKey = some jk)) with
    | none =>
      refine ⟨⟨cdb.nextKey, some jk, w1⟩, ?_, rfl⟩
      simp [upsert_csl_header, h]
    | some r =>
      have hm := List.mem_of_find?_eq_some h
      have hjk : r.jobKey = some jk := by
        have := List.find?_some h
        simpa using this
      refine ⟨{ r with vals := w1 }, ?_, hjk⟩
      simp only [upsert_csl_header, h]
      exact List.mem_map.mpr ⟨r, hm, by simp⟩
  · simp [upsert_csl_header]

/-- C5, witness for the amended theorem: a non-empty AR number against an
empty table, a CSL job key, and the keyless CSL insert path. -/
theorem header_insert_iff_csl_jobkey_absent_witness :
    (((⟨[], 1⟩ : ARHeaderDB)).rows.countP
        (fun r => decide (r.number = "INV-001")) ≤ 1) ∧
    (((upsert_ar_header "INV-001" 150
          (upsert_ar_header "INV-001" 100 ⟨[], 1⟩).2).2.rows.length
        = (upsert_ar_header "INV-001" 100 (⟨[], 1⟩ : ARHeaderDB)).2.rows.length) ∧
     ((upsert_ar_header "INV-001" 150
          (upsert_ar_header "INV-001" 100 ⟨[], 1⟩).2).2.rows.countP
        (fun r => decide (r.number = "INV-001")) = 1) ∧
     ((upsert_csl_header (some 9) 21
          (upsert_csl_header (some 9) 20 ⟨[], 1⟩).2).2.rows.length
        = (upsert_csl_header (some 9) 20 (⟨[], 1⟩ : CslHeaderDB)).2.rows.length) ∧
     ((upsert_csl_header none 30 (⟨[], 1⟩ : CslHeaderDB)).2.rows.length
        = (⟨[], 1⟩ : CslHeaderDB).rows.length + 1)) :=
  ⟨by decide,
   header_insert_iff_csl_jobkey_absent "INV-001" 100 150 ⟨[], 1⟩ 9 20 21 30 ⟨[], 1⟩
     (by decide)⟩
